import Mathlib

/-!
Verification development for the JIT build-context tracking engine
(`src/jit/lib/setupTrackingContext.js`, build mode and watch mode).

The JavaScript source is shallowly embedded: the filesystem and the external
collaborators (fast-glob, the module-dependency walker, `require`) are fields
of an explicit `FS` record, mutable per-process and per-context state is
threaded explicitly, and observable side effects of the configuration loader
(stat / re-parse) are returned as an effect log.
-/

set_option autoImplicit false

namespace TrackingContext

/-! ## Association-list maps

`Map`-like state (the configuration cache, the per-context file-modified map,
the `require` cache) is modelled as association lists over `String` keys. -/

/-- Lookup in an association list (first matching key wins). -/
def lookupEntry {α : Type} : List (String × α) → String → Option α
  | [], _ => none
  | (k, v) :: rest, key => if k = key then some v else lookupEntry rest key

/-- `Map.set`: replace the value at a key, or append the binding if absent. -/
def setEntry {α : Type} : List (String × α) → String → α → List (String × α)
  | [], key, v => [(key, v)]
  | (k, w) :: rest, key, v =>
    if k = key then (k, v) :: rest else (k, w) :: setEntry rest key v

theorem lookupEntry_setEntry_self {α : Type} (m : List (String × α)) (k : String) (v : α) :
    lookupEntry (setEntry m k v) k = some v := by
  induction m with
  | nil => simp [setEntry, lookupEntry]
  | cons hd tl ih =>
    obtain ⟨k0, v0⟩ := hd
    by_cases h : k0 = k
    · simp [setEntry, lookupEntry, h]
    · simp [setEntry, lookupEntry, h, ih]

theorem lookupEntry_setEntry_ne {α : Type} (m : List (String × α)) (k key : String) (v : α)
    (h : k ≠ key) : lookupEntry (setEntry m k v) key = lookupEntry m key := by
  induction m with
  | nil => simp [setEntry, lookupEntry, h]
  | cons hd tl ih =>
    obtain ⟨k0, v0⟩ := hd
    by_cases h0 : k0 = k
    · subst h0
      simp [setEntry, lookupEntry, h]
    · simp [setEntry, lookupEntry, h0, ih]

theorem lookupEntry_map_self {α : Type} (l : List String) (g : String → α) (x : String)
    (hx : x ∈ l) : lookupEntry (l.map fun f => (f, g f)) x = some (g x) := by
  induction l with
  | nil => cases hx
  | cons hd tl ih =>
    by_cases h : hd = x
    · simp [lookupEntry, h]
    · rcases List.mem_cons.mp hx with h1 | h1
      · exact absurd h1.symm h
      · simp [lookupEntry, h, ih h1]

/-! ## Data model -/

/-- One entry of the configuration's `purge` / `content` list: either a string
(path or glob pattern) or an inline raw-content descriptor with literal text
and a declared extension. -/
inductive ContentItem where
  | str (s : String)
  | raw (text : String) (extension : String)
deriving DecidableEq, Repr

/-- `tailwindConfig.purge` is either a flat array of content items or an
object carrying the list under `.content`
(`Array.isArray(tailwindConfig.purge) ? tailwindConfig.purge : tailwindConfig.purge.content`). -/
inductive Purge where
  | arr (items : List ContentItem)
  | obj (content : List ContentItem)
deriving DecidableEq, Repr

/-- The `Array.isArray` dispatch used at the top of both `getCandidateFiles`
and `resolvedChangedContent`. -/
def purgeContentOf : Purge → List ContentItem
  | .arr items => items
  | .obj content => content

/-- A resolved configuration value. Only the `purge` content list is inspected
by this module; `theme` stands in for the rest of the opaque structured data
so that distinct configurations exist. -/
structure Config where
  purge : Purge
  theme : Nat
deriving DecidableEq, Repr

instance : Inhabited Config := ⟨⟨Purge.arr [], 0⟩⟩

/-- An element of a context's `changedContent` sequence:
`\x7b content, extension \x7d`. -/
structure ContentRecord where
  content : String
  extension : String
deriving DecidableEq, Repr

/-- A postcss result message; messages with `type = "dependency"` carry CSS
`@import` dependencies of the current source file. -/
structure Msg where
  type : String
  file : String
deriving DecidableEq, Repr

/-- The filesystem together with the external collaborators that read it,
used as black boxes with defined contracts:
* `present` / `mtime` / `fileContent` model `fs` stats and reads
  (`mtimeMs` as a natural number; `statSync` and `readFileSync` are used by
  the source only on files that exist);
* `depClosure` models `getModuleDependencies(path).map(dep => dep.file)`
  (modelled from the spec: the transitive dependency closure of the module —
  the module itself and every file its imports depend on);
* `globFiles` models `fastGlob.sync(candidateFiles)` (deduplicated matches
  of the candidate patterns);
* `parse` models `require(path)` re-evaluated after its cache entry was
  deleted, i.e. a fresh read-and-parse of the module from disk. -/
structure FS where
  present : String → Bool
  mtime : String → Nat
  fileContent : String → String
  depClosure : String → List String
  globFiles : List String → List String
  parse : String → Config

/-! ## Modelled external path helpers -/

/-- Modelled from the spec: `normalizePath(path.resolve(basePath, purgePath))`,
an external black box resolving a content entry relative to the configuration
file's directory (or the working directory) and normalizing separators. -/
def resolveNormalize (basePath purgePath : String) : String :=
  basePath ++ "/" ++ purgePath

/-- Modelled from the spec: `path.resolve('.', file)`, an external black box;
paths delivered by the watcher are resolved against the working directory.
Modelled as the identity on already-resolved paths. -/
def pathResolveDot (file : String) : String := file

/-- Modelled from the spec: `path.extname(changedFile).slice(1)`, the filename
suffix after the last dot, empty when there is none. -/
def extOf (file : String) : String :=
  let parts := file.splitOn "."
  if parts.length ≤ 1 then "" else parts.getLastD ""

/-! ## Build mode: candidate files, raw entries, the poll-based scan -/

/-- `getCandidateFiles` (both modes, identical code): keep the string entries
of the purge content list and resolve each against the base path.
(The per-context `candidateFilesCache` memoization returns the same list on
every call for a fixed context; recomputation is pure here.) -/
def getCandidateFiles (purge : Purge) (basePath : String) : List String :=
  (purgeContentOf purge).filterMap fun item =>
    match item with
    | ContentItem.str s => some (resolveNormalize basePath s)
    | ContentItem.raw _ _ => none

/-- The raw inline entries of `resolvedChangedContent` (both modes):
`.filter(item => typeof item.raw === 'string').map((raw, extension) =>
(content: raw, extension))`. -/
def rawEntries (purge : Purge) : List ContentRecord :=
  (purgeContentOf purge).filterMap fun item =>
    match item with
    | ContentItem.raw t e => some ⟨t, e⟩
    | ContentItem.str _ => none

/-- The scanner's change test: a file absent from the file-modified map is
treated as having recorded timestamp negative infinity (`none` here), hence
always newer. -/
def isNewer (modified : Nat) : Option Nat → Bool
  | none => true
  | some t => modified > t

/-- The loop body of build-mode `resolveChangedFiles`: walk the globbed file
list; a file whose current `mtimeMs` is strictly greater than its recorded
value is added to the changed set and the map is updated; otherwise neither
the map entry nor the file is touched. -/
def scanFiles (fs : FS) : List String → List (String × Nat) → List String × List (String × Nat)
  | [], m => ([], m)
  | file :: rest, m =>
    let modified := fs.mtime file
    if isNewer modified (lookupEntry m file) then
      let res := scanFiles fs rest (setEntry m file modified)
      (file :: res.1, res.2)
    else
      scanFiles fs rest m

/-- Build-mode `resolveChangedFiles`: expand the candidate patterns with
fast-glob, then scan. Returns the changed files (in discovery order) and the
updated file-modified map. -/
def resolveChangedFiles (fs : FS) (candidateFiles : List String)
    (fileModifiedMap : List (String × Nat)) : List String × List (String × Nat) :=
  scanFiles fs (fs.globFiles candidateFiles) fileModifiedMap

/-- Build-mode `resolvedChangedContent`: the raw inline entries of the purge
list, followed by `\x7b content, extension \x7d` records read for each changed
file. -/
def resolvedChangedContent (fs : FS) (purge : Purge) (candidateFiles : List String)
    (fileModifiedMap : List (String × Nat)) : List ContentRecord × List (String × Nat) :=
  let res := resolveChangedFiles fs candidateFiles fileModifiedMap
  (rawEntries purge ++ res.1.map (fun f => ⟨fs.fileContent f, extOf f⟩), res.2)

/-- Per-context state touched by a build-mode request: the context's
file-modified map (`getFileModifiedMap(context)`) and its append-only
`changedContent`. -/
structure TrackCtxState where
  fileModifiedMap : List (String × Nat)
  changedContent : List ContentRecord
deriving DecidableEq, Repr

/-- The content-appending tail of the function returned by
`setupTrackingContext` (lines 158-185), for a fixed context: when the
source's tailwind-directive set is nonempty, append every record of
`resolvedChangedContent` to the context's `changedContent`; otherwise the
context state is untouched. `getContext` (external, modelled from the spec:
two requests with identical identity return the same context instance)
guarantees that two successive requests with no filesystem change operate on
this same per-context state, so the state is threaded directly. -/
def trackingRequest (fs : FS) (purge : Purge) (basePath : String)
    (tailwindDirectives : List String) (st : TrackCtxState) : TrackCtxState :=
  let candidateFiles := getCandidateFiles purge basePath
  if 0 < tailwindDirectives.length then
    let res := resolvedChangedContent fs purge candidateFiles st.fileModifiedMap
    { fileModifiedMap := res.2, changedContent := st.changedContent ++ res.1 }
  else
    st

/-! ## Configuration loading (`getTailwindConfig`, build and watch variants) -/

/-- The input to the build entry points: a configuration file path or an
inline configuration value. `resolveConfigPath` (external util, modelled from
the spec) returns the file path for path inputs and null for inline values;
the loaders branch on that result. `inlineConfig` covers both inline shapes
handled by `configOrPath.config === undefined ? configOrPath :
configOrPath.config`. -/
inductive ConfigInput where
  | path (p : String)
  | inlineConfig (c : Config)
deriving DecidableEq, Repr

/-- An observable side effect of a configuration-loader call: reading a
file's modification timestamp (`fs.statSync`), or re-reading and re-parsing a
module from disk (`require` after deleting its `require.cache` entry). -/
inductive Eff where
  | stat (p : String)
  | reparse (p : String)
deriving DecidableEq, Repr

/-- The tuple `[config, userConfigPath, hash, dependencies]` returned by both
`getTailwindConfig` variants. Build mode's dependency list holds paths
(`δ = String`); watch mode's holds possibly-null paths (`δ = Option String`,
`none` modelling JavaScript `null`). -/
structure LoaderResult (δ : Type) where
  config : Config
  sourcePath : Option String
  hashVal : Nat
  deps : List δ
deriving DecidableEq, Repr

/-- A build-mode `configPathCache` entry:
`[config, hash, dependencies, modified-snapshot]`. -/
structure BuildCacheEntry where
  config : Config
  hashVal : Nat
  deps : List String
  modifiedMap : List (String × Nat)
deriving DecidableEq, Repr

/-- The build-mode `configPathCache` (an LRU bounded at 100 entries; the
bound is irrelevant to the claims and not modelled). -/
abbrev BuildCache : Type := List (String × BuildCacheEntry)

/-- Build mode's per-dependency change test: changed when there is no cached
entry, when the dependency is missing from the cached snapshot, or when its
current timestamp is strictly greater than the snapshot value. -/
def depChanged (fs : FS) (prev : Option BuildCacheEntry) (f : String) : Bool :=
  match prev with
  | none => true
  | some e =>
    match lookupEntry e.modifiedMap f with
    | none => true
    | some t => fs.mtime f > t

/-- Build-mode `getTailwindConfig` (the `DISABLE_TOUCH = TRUE` module):
for a file path, compute the module's dependency closure, stat every closure
member, and either return the cached `[config, path, hash, deps]` when no
timestamp increased, or purge the `require` cache, re-parse, re-hash and
update the cache. For an inline value, resolve afresh with a null path, an
empty dependency list and a hash over the resolved value, without touching
the cache. The third component logs the stat/re-parse effects of the call.
(When the dependency closure is empty and the cache is cold the JavaScript
returns `undefined` fields; that corner is modelled with `default` and is
unreachable since a module's closure contains the module itself.) -/
def getTailwindConfigBuild (resolveCfg : Config → Config) (hashFn : Config → Nat)
    (fs : FS) (cache : BuildCache) (input : ConfigInput) :
    LoaderResult String × BuildCache × List Eff :=
  match input with
  | ConfigInput.path userConfigPath =>
    let prev := lookupEntry cache userConfigPath
    let newDeps := fs.depClosure userConfigPath
    let newModified := newDeps.map fun f => (f, fs.mtime f)
    let statEffs := newDeps.map Eff.stat
    let modified := newDeps.any (depChanged fs prev)
    if modified then
      let newConfig := resolveCfg (fs.parse userConfigPath)
      let newHash := hashFn newConfig
      (⟨newConfig, some userConfigPath, newHash, newDeps⟩,
       setEntry cache userConfigPath ⟨newConfig, newHash, newDeps, newModified⟩,
       statEffs ++ [Eff.reparse userConfigPath])
    else
      match prev with
      | some e => (⟨e.config, some userConfigPath, e.hashVal, e.deps⟩, cache, statEffs)
      | none => (⟨default, some userConfigPath, 0, []⟩, cache, statEffs)
  | ConfigInput.inlineConfig c =>
    let newConfig := resolveCfg c
    (⟨newConfig, none, hashFn newConfig, []⟩, cache, [])

/-- A watch-mode `configPathCache` entry: `[config, modified, hash]`. -/
structure WatchCacheEntry where
  config : Config
  modifiedAt : Nat
  hashVal : Nat
deriving DecidableEq, Repr

/-- The watch-mode `configPathCache`. -/
abbrev WatchCache : Type := List (String × WatchCacheEntry)

/-- Watch-mode `getTailwindConfig` (the `DISABLE_TOUCH = FALSE` module):
for a file path, stat only the configuration file itself; when its timestamp
is less than or equal to the cached one (cache miss defaults the cached value
to negative infinity, so a miss always re-parses), return the cached config
with dependency list `[userConfigPath]`; otherwise purge the config file's
`require` cache entry, re-parse, re-hash and update the cache. For an inline
value, resolve afresh — note the source returns `[userConfigPath]` as the
dependency list on this branch too, and `userConfigPath` is null there, so
the returned dependency list is `[null]` (`[none]` here), not `[]`. -/
def getTailwindConfigWatch (resolveCfg : Config → Config) (hashFn : Config → Nat)
    (fs : FS) (cache : WatchCache) (input : ConfigInput) :
    LoaderResult (Option String) × WatchCache × List Eff :=
  match input with
  | ConfigInput.path userConfigPath =>
    let prev := lookupEntry cache userConfigPath
    let modified := fs.mtime userConfigPath
    let fresh :=
      let newConfig := resolveCfg (fs.parse userConfigPath)
      let newHash := hashFn newConfig
      (LoaderResult.mk newConfig (some userConfigPath) newHash [some userConfigPath],
       setEntry cache userConfigPath ⟨newConfig, modified, newHash⟩,
       [Eff.stat userConfigPath, Eff.reparse userConfigPath])
    match prev with
    | some e =>
      if modified ≤ e.modifiedAt then
        (⟨e.config, some userConfigPath, e.hashVal, [some userConfigPath]⟩,
         cache, [Eff.stat userConfigPath])
      else fresh
    | none => fresh
  | ConfigInput.inlineConfig c =>
    let newConfig := resolveCfg c
    (⟨newConfig, none, hashFn newConfig, [none]⟩, cache, [])

/-! ## Context identity dependencies -/

/-- The `contextDependencies` computation shared verbatim by
`setupTrackingContext` (lines 129-146) and `setupWatchingContext`
(lines 479-496): start from the configuration dependencies; only when the
source's tailwind-directive set is nonempty, additionally add the current
CSS file (`result.opts.from`) and every `type = "dependency"` message file.
This set is what `getContext` receives as the identity's dependency set. -/
def contextDependenciesOf (configDependencies : List String)
    (tailwindDirectives : List String) (srcFrom : String)
    (messages : List Msg) : List String :=
  if 0 < tailwindDirectives.length then
    configDependencies ++ [srcFrom]
      ++ (messages.filter fun m => m.type = "dependency").map Msg.file
  else
    configDependencies

/-! ## Touch files and the armed watcher's event handlers (watch mode) -/

/-- `touch(filename)`: try `fs.utimesSync(filename, now, now)`; if that
throws (which in this model happens exactly when the file does not exist),
create the file empty via `fs.closeSync(fs.openSync(filename, 'w'))`. In
either case the file afterwards exists with modification time `now`, and the
operation returns normally (the recovery neither drops the signal nor
re-throws). -/
def FS.touch (fs : FS) (now : Nat) (filename : String) : FS :=
  if fs.present filename then
    { fs with mtime := fun q => if q = filename then now else fs.mtime q }
  else
    { fs with
      present := fun q => if q = filename then true else fs.present q,
      mtime := fun q => if q = filename then now else fs.mtime q,
      fileContent := fun q => if q = filename then "" else fs.fileContent q }

/-- The per-context state read and written by the armed watcher's event
callbacks: the context's `changedContent` and the set of module paths present
in `require.cache` (`delete require.cache[require.resolve(dep)]` removes the
cached parsed representation of a dependency). -/
structure WatchHandlerCtx where
  changedContent : List ContentRecord
  requireCache : List String
deriving DecidableEq, Repr

/-- The watcher's `change` callback (lines 320-338): for a configuration
dependency, delete every configuration dependency's `require.cache` entry and
touch the configuration file itself, appending nothing; for any other file,
read it, append `\x7b content, extension \x7d` to `changedContent` and touch
the context's touch file. -/
def onChangeEvent (configPath : String) (configDependencies : List String)
    (touchFile : String) (now : Nat) (fs : FS) (ctx : WatchHandlerCtx)
    (file : String) : FS × WatchHandlerCtx :=
  if file ∈ configDependencies then
    (fs.touch now configPath,
     { ctx with requireCache := ctx.requireCache.filter fun m => m ∉ configDependencies })
  else
    let changedFile := pathResolveDot file
    let content := fs.fileContent changedFile
    let extension := extOf changedFile
    (fs.touch now touchFile,
     { ctx with changedContent := ctx.changedContent ++ [⟨content, extension⟩] })

/-- The watcher's `add` callback (lines 312-318): unconditionally read the
added file, append `\x7b content, extension \x7d` to `changedContent` and
touch the context's touch file — there is no configuration-dependency test on
this event. -/
def onAddEvent (touchFile : String) (now : Nat) (fs : FS) (ctx : WatchHandlerCtx)
    (file : String) : FS × WatchHandlerCtx :=
  let changedFile := pathResolveDot file
  let content := fs.fileContent changedFile
  let extension := extOf changedFile
  (fs.touch now touchFile,
   { ctx with changedContent := ctx.changedContent ++ [⟨content, extension⟩] })

/-- The watcher's `unlink` callback (lines 340-348): for a configuration
dependency, purge the `require` cache entries and touch the configuration
file; otherwise do nothing. -/
def onUnlinkEvent (configPath : String) (configDependencies : List String)
    (now : Nat) (fs : FS) (ctx : WatchHandlerCtx) (file : String) :
    FS × WatchHandlerCtx :=
  if file ∈ configDependencies then
    (fs.touch now configPath,
     { ctx with requireCache := ctx.requireCache.filter fun m => m ∉ configDependencies })
  else
    (fs, ctx)

/-! ## Watch mode: the scan-once build-request path -/

/-- Per-context state touched by a watch-mode build request: whether
`scannedContentCache` holds the context (the scanned flag) and the context's
`changedContent`. -/
structure WatchCtxState where
  scanned : Bool
  changedContent : List ContentRecord
deriving DecidableEq, Repr

/-- Watch-mode `resolveChangedFiles` (lines 452-467): glob-expand the
candidate files only when the context has not been scanned yet, then record
the context in `scannedContentCache`; a context already scanned yields the
empty set. -/
def resolveChangedFilesWatch (fs : FS) (candidateFiles : List String)
    (scanned : Bool) : List String × Bool :=
  if scanned then ([], true) else (fs.globFiles candidateFiles, true)

/-- Watch-mode `resolvedChangedContent` (lines 433-448): the raw inline
entries of the purge list, followed by records read for each file of the
(at-most-once) scan. -/
def resolvedChangedContentWatch (fs : FS) (purge : Purge)
    (candidateFiles : List String) (scanned : Bool) :
    List ContentRecord × Bool :=
  let res := resolveChangedFilesWatch fs candidateFiles scanned
  (rawEntries purge ++ res.1.map (fun f => ⟨fs.fileContent f, extOf f⟩), res.2)

/-- The content-appending tail of the function returned by
`setupWatchingContext` (lines 545-549), for a fixed context: when the
source's tailwind-directive set is nonempty, append every record of
`resolvedChangedContent` to the context's `changedContent`. -/
def watchingRequest (fs : FS) (purge : Purge) (candidateFiles : List String)
    (tailwindDirectives : List String) (st : WatchCtxState) : WatchCtxState :=
  if 0 < tailwindDirectives.length then
    let res := resolvedChangedContentWatch fs purge candidateFiles st.scanned
    { scanned := res.2, changedContent := st.changedContent ++ res.1 }
  else
    st

/-! ## Lemmas about the build-mode scanner -/

theorem scanFiles_cons (fs : FS) (file : String) (rest : List String)
    (m : List (String × Nat)) :
    scanFiles fs (file :: rest) m =
      if isNewer (fs.mtime file) (lookupEntry m file) then
        (file :: (scanFiles fs rest (setEntry m file (fs.mtime file))).1,
         (scanFiles fs rest (setEntry m file (fs.mtime file))).2)
      else scanFiles fs rest m := rfl

theorem scanFiles_mem_imp (fs : FS) (files : List String) :
    ∀ (m : List (String × Nat)) (f : String), f ∈ (scanFiles fs files m).1 → f ∈ files := by
  induction files with
  | nil => intro m f h; simp [scanFiles] at h
  | cons file rest ih =>
    intro m f h
    rw [scanFiles_cons] at h
    by_cases hc : isNewer (fs.mtime file) (lookupEntry m file) = true
    · simp only [hc, if_true] at h
      rcases List.mem_cons.mp h with h1 | h1
      · exact h1 ▸ List.mem_cons_self file rest
      · exact List.mem_cons_of_mem _ (ih _ f h1)
    · simp only [hc, if_false] at h
      exact List.mem_cons_of_mem _ (ih _ f h)

theorem scanFiles_map_notin (fs : FS) (files : List String) :
    ∀ (m : List (String × Nat)) (f : String), f ∉ files →
      lookupEntry (scanFiles fs files m).2 f = lookupEntry m f := by
  induction files with
  | nil => intro m f _; simp [scanFiles]
  | cons file rest ih =>
    intro m f hf
    have hne : file ≠ f := fun h => hf (h ▸ List.mem_cons_self file rest)
    have hfr : f ∉ rest := fun h => hf (List.mem_cons_of_mem _ h)
    rw [scanFiles_cons]
    by_cases hc : isNewer (fs.mtime file) (lookupEntry m file) = true
    · simp only [hc, if_true]
      rw [ih _ f hfr, lookupEntry_setEntry_ne _ _ _ _ hne]
    · simp only [hc, if_false]
      exact ih _ f hfr

theorem scanFiles_preserve (fs : FS) (files : List String) :
    ∀ (m : List (String × Nat)) (f : String) (t : Nat),
      lookupEntry m f = some t → fs.mtime f ≤ t →
      lookupEntry (scanFiles fs files m).2 f = some t := by
  induction files with
  | nil => intro m f t h _; simpa [scanFiles] using h
  | cons file rest ih =>
    intro m f t h hle
    rw [scanFiles_cons]
    by_cases hfile : file = f
    · subst hfile
      have hfalse : isNewer (fs.mtime file) (lookupEntry m file) = false := by
        rw [h]
        simp only [isNewer, decide_eq_false_iff_not, not_lt]
        omega
      simp only [hfalse, Bool.false_eq_true, if_false]
      exact ih _ file t h hle
    · by_cases hc : isNewer (fs.mtime file) (lookupEntry m file) = true
      · simp only [hc, if_true]
        refine ih _ f t ?_ hle
        rw [lookupEntry_setEntry_ne _ _ _ _ hfile]
        exact h
      · simp only [hc, if_false]
        exact ih _ f t h hle

theorem scanFiles_covers (fs : FS) (files : List String) :
    ∀ (m : List (String × Nat)) (f : String), f ∈ files →
      ∃ t, lookupEntry (scanFiles fs files m).2 f = some t ∧ fs.mtime f ≤ t := by
  induction files with
  | nil => intro m f h; cases h
  | cons file rest ih =>
    intro m f hf
    rw [scanFiles_cons]
    by_cases hc : isNewer (fs.mtime file) (lookupEntry m file) = true
    · simp only [hc, if_true]
      by_cases hfile : f = file
      · subst hfile
        exact ⟨fs.mtime f,
          scanFiles_preserve fs rest _ f (fs.mtime f)
            (lookupEntry_setEntry_self m f (fs.mtime f)) (le_refl _),
          le_refl _⟩
      · rcases List.mem_cons.mp hf with h1 | h1
        · exact absurd h1 hfile
        · exact ih _ f h1
    · simp only [hc, if_false]
      by_cases hfile : f = file
      · subst hfile
        have hsome : ∃ t, lookupEntry m f = some t ∧ fs.mtime f ≤ t := by
          cases hl : lookupEntry m f with
          | none => rw [hl] at hc; simp [isNewer] at hc
          | some t =>
            rw [hl] at hc
            simp only [isNewer, decide_eq_true_eq] at hc
            exact ⟨t, rfl, by omega⟩
        obtain ⟨t, hl, hle⟩ := hsome
        exact ⟨t, scanFiles_preserve fs rest m f t hl hle, hle⟩
      · rcases List.mem_cons.mp hf with h1 | h1
        · exact absurd h1 hfile
        · exact ih _ f h1

theorem scanFiles_stable (fs : FS) (files : List String) :
    ∀ m : List (String × Nat),
      (∀ f ∈ files, ∃ t, lookupEntry m f = some t ∧ fs.mtime f ≤ t) →
      scanFiles fs files m = ([], m) := by
  induction files with
  | nil => intro m _; rfl
  | cons file rest ih =>
    intro m hm
    obtain ⟨t, hl, hle⟩ := hm file (List.mem_cons_self file rest)
    have hfalse : isNewer (fs.mtime file) (lookupEntry m file) = false := by
      rw [hl]
      simp only [isNewer, decide_eq_false_iff_not, not_lt]
      omega
    rw [scanFiles_cons, hfalse]
    simp only [Bool.false_eq_true, if_false]
    exact ih m fun f hf => hm f (List.mem_cons_of_mem _ hf)

theorem isNewer_eq_true_iff (modified : Nat) (o : Option Nat) :
    isNewer modified o = true ↔ ∀ t, o = some t → t < modified := by
  cases o with
  | none => simp [isNewer]
  | some t => simp [isNewer]

theorem scanFiles_spec (fs : FS) (files : List String) :
    files.Nodup → ∀ (m : List (String × Nat)) (f : String), f ∈ files →
      ((f ∈ (scanFiles fs files m).1 ↔ isNewer (fs.mtime f) (lookupEntry m f) = true)
       ∧ (isNewer (fs.mtime f) (lookupEntry m f) = true →
            lookupEntry (scanFiles fs files m).2 f = some (fs.mtime f))
       ∧ (isNewer (fs.mtime f) (lookupEntry m f) = false →
            lookupEntry (scanFiles fs files m).2 f = lookupEntry m f)) := by
  induction files with
  | nil => intro _ m f h; cases h
  | cons file rest ih =>
    intro hnd m f hf
    have hnd1 : file ∉ rest := (List.nodup_cons.mp hnd).1
    have hnd2 : rest.Nodup := (List.nodup_cons.mp hnd).2
    by_cases hfile : f = file
    · subst hfile
      rw [scanFiles_cons]
      by_cases hc : isNewer (fs.mtime f) (lookupEntry m f) = true
      · rw [if_pos hc]
        refine ⟨⟨fun _ => hc, fun _ => List.mem_cons_self f _⟩, fun _ => ?_, fun hfc => ?_⟩
        · rw [scanFiles_map_notin fs rest _ f hnd1, lookupEntry_setEntry_self]
        · rw [hc] at hfc; cases hfc
      · rw [if_neg hc]
        have hns : f ∉ (scanFiles fs rest m).1 :=
          fun hmem => hnd1 (scanFiles_mem_imp fs rest m f hmem)
        refine ⟨⟨fun hmem => absurd hmem hns, fun hmem => absurd hmem hc⟩,
          fun hmem => absurd hmem hc, fun _ => ?_⟩
        exact scanFiles_map_notin fs rest m f hnd1
    · have hfr : f ∈ rest := by
        rcases List.mem_cons.mp hf with h1 | h1
        · exact absurd h1 hfile
        · exact h1
      rw [scanFiles_cons]
      by_cases hc : isNewer (fs.mtime file) (lookupEntry m file) = true
      · rw [if_pos hc]
        have hne : file ≠ f := fun h => hfile h.symm
        have hlk : lookupEntry (setEntry m file (fs.mtime file)) f = lookupEntry m f :=
          lookupEntry_setEntry_ne m file f (fs.mtime file) hne
        obtain ⟨ih1, ih2, ih3⟩ := ih hnd2 (setEntry m file (fs.mtime file)) f hfr
        rw [hlk] at ih1 ih2 ih3
        refine ⟨?_, ih2, ih3⟩
        rw [List.mem_cons]
        constructor
        · intro h1
          rcases h1 with h1 | h1
          · exact absurd h1 hfile
          · exact ih1.mp h1
        · intro h1
          exact Or.inr (ih1.mpr h1)
      · rw [if_neg hc]
        exact ih hnd2 m f hfr

/-- Claim C1 (corrected; counterexample `C1_counterexample`): across a second
build-mode request on the same context with an unchanged filesystem, the delta
appended to the context's `changedContent` is exactly the configuration's
inline raw-content entries (and nothing read from the filesystem); the delta
is therefore empty exactly when the content list has no raw descriptors or the
directive set is empty, but not for raw-content configurations. -/
theorem C1_second_call_delta (fs : FS) (purge : Purge) (basePath : String)
    (tailwindDirectives : List String) (st : TrackCtxState) :
    (trackingRequest fs purge basePath tailwindDirectives
        (trackingRequest fs purge basePath tailwindDirectives st)).changedContent
      = (trackingRequest fs purge basePath tailwindDirectives st).changedContent
        ++ (if 0 < tailwindDirectives.length then rawEntries purge else []) := by
  by_cases hd : 0 < tailwindDirectives.length
  · have hscan : scanFiles fs (fs.globFiles (getCandidateFiles purge basePath))
        ((scanFiles fs (fs.globFiles (getCandidateFiles purge basePath))
            st.fileModifiedMap).2)
        = ([], (scanFiles fs (fs.globFiles (getCandidateFiles purge basePath))
            st.fileModifiedMap).2) :=
      scanFiles_stable fs _ _ fun f hf =>
        scanFiles_covers fs (fs.globFiles (getCandidateFiles purge basePath))
          st.fileModifiedMap f hf
    simp only [trackingRequest, resolvedChangedContent, resolveChangedFiles, hd, if_true]
    rw [hscan]
    simp
  · simp [trackingRequest, hd]

/-- A concrete filesystem on which the candidate globs match nothing; the
configuration's only content entry is an inline raw descriptor. -/
def fsRawOnly : FS :=
  { present := fun _ => true
    mtime := fun _ => 0
    fileContent := fun _ => ""
    depClosure := fun p => [p]
    globFiles := fun _ => []
    parse := fun _ => default }

/-- The raw-content configuration used by the C1 counterexample. -/
def purgeRaw : Purge := Purge.arr [ContentItem.raw "<div class=p-4></div>" "html"]

/-- Claim C1 as stated is false: with a configuration whose content list
contains an inline raw-content descriptor, the second build-mode request with
no filesystem change appends that descriptor to `changedContent` again, so
the delta across the second call is not empty. -/
theorem C1_counterexample :
    ¬ ((trackingRequest fsRawOnly purgeRaw "/proj" ["tailwind"]
          (trackingRequest fsRawOnly purgeRaw "/proj" ["tailwind"]
            ⟨[], []⟩)).changedContent
        = (trackingRequest fsRawOnly purgeRaw "/proj" ["tailwind"]
            ⟨[], []⟩).changedContent) := by
  decide

/-- Claim C6 (confirmed): in the build-mode scan over the deduplicated
expansion of the candidate list, a file is included in the result exactly when
its current modification timestamp is strictly greater than the recorded one
(a file absent from the map — recorded timestamp negative infinity — is always
included); included files get their map entry set to the new timestamp,
excluded files keep their map entry unchanged, and the scan's content output
reads exactly the included files. -/
theorem C6_scan_membership (fs : FS) (purge : Purge) (cand : List String)
    (m : List (String × Nat)) (f : String)
    (hnd : (fs.globFiles cand).Nodup) (hf : f ∈ fs.globFiles cand) :
    (f ∈ (resolveChangedFiles fs cand m).1
        ↔ ∀ t, lookupEntry m f = some t → t < fs.mtime f)
    ∧ (f ∈ (resolveChangedFiles fs cand m).1 →
        lookupEntry (resolveChangedFiles fs cand m).2 f = some (fs.mtime f))
    ∧ (f ∉ (resolveChangedFiles fs cand m).1 →
        lookupEntry (resolveChangedFiles fs cand m).2 f = lookupEntry m f)
    ∧ (resolvedChangedContent fs purge cand m).1
        = rawEntries purge ++ (resolveChangedFiles fs cand m).1.map
            fun g => ContentRecord.mk (fs.fileContent g) (extOf g) := by
  obtain ⟨h1, h2, h3⟩ := scanFiles_spec fs (fs.globFiles cand) hnd m f hf
  refine ⟨?_, ?_, ?_, rfl⟩
  · rw [resolveChangedFiles, h1, isNewer_eq_true_iff]
  · intro hmem
    exact h2 (h1.mp hmem)
  · intro hnmem
    apply h3
    cases his : isNewer (fs.mtime f) (lookupEntry m f) with
    | false => rfl
    | true => exact absurd (h1.mpr his) hnmem

/-- A concrete filesystem for the C6 witness: two candidate files, one of
which is already recorded in the map with an up-to-date timestamp. -/
def fsTwoFiles : FS :=
  { present := fun _ => true
    mtime := fun q => if q = "/proj/src/a.html" then 4 else 9
    fileContent := fun q => if q = "/proj/src/a.html" then "<a/>" else "<b/>"
    depClosure := fun p => [p]
    globFiles := fun _ => ["/proj/src/a.html", "/proj/src/b.html"]
    parse := fun _ => default }

/-- Witness for C6: evaluated on `fsTwoFiles` with `a.html` recorded at
timestamp 4 (not newer) and `b.html` unrecorded (newer), the scan's
conclusions hold at the concrete file `b.html`. -/
theorem C6_scan_membership_witness :
    ("/proj/src/b.html" ∈ (resolveChangedFiles fsTwoFiles ["/proj/src/**"]
          [("/proj/src/a.html", 4)]).1
        ↔ ∀ t, lookupEntry [("/proj/src/a.html", 4)] "/proj/src/b.html" = some t →
            t < fsTwoFiles.mtime "/proj/src/b.html")
    ∧ ("/proj/src/b.html" ∈ (resolveChangedFiles fsTwoFiles ["/proj/src/**"]
          [("/proj/src/a.html", 4)]).1 →
        lookupEntry (resolveChangedFiles fsTwoFiles ["/proj/src/**"]
          [("/proj/src/a.html", 4)]).2 "/proj/src/b.html"
          = some (fsTwoFiles.mtime "/proj/src/b.html"))
    ∧ ("/proj/src/b.html" ∉ (resolveChangedFiles fsTwoFiles ["/proj/src/**"]
          [("/proj/src/a.html", 4)]).1 →
        lookupEntry (resolveChangedFiles fsTwoFiles ["/proj/src/**"]
          [("/proj/src/a.html", 4)]).2 "/proj/src/b.html"
          = lookupEntry [("/proj/src/a.html", 4)] "/proj/src/b.html")
    ∧ (resolvedChangedContent fsTwoFiles purgeRaw ["/proj/src/**"]
          [("/proj/src/a.html", 4)]).1
        = rawEntries purgeRaw ++ (resolveChangedFiles fsTwoFiles ["/proj/src/**"]
            [("/proj/src/a.html", 4)]).1.map
            fun g => ContentRecord.mk (fsTwoFiles.fileContent g) (extOf g) :=
  C6_scan_membership fsTwoFiles purgeRaw ["/proj/src/**"] [("/proj/src/a.html", 4)]
    "/proj/src/b.html" (by decide) (by decide)

/-! ## Lemmas about the configuration loaders -/

theorem depChanged_all_false (fs : FS) (e : BuildCacheEntry) (deps : List String)
    (h : ∀ f ∈ deps, ∃ t, lookupEntry e.modifiedMap f = some t ∧ fs.mtime f ≤ t) :
    deps.any (depChanged fs (some e)) = false := by
  rw [List.any_eq_false]
  intro f hf
  obtain ⟨t, hl, hle⟩ := h f hf
  simp only [depChanged, hl, decide_eq_true_eq]
  omega

theorem depChanged_false (fs : FS) (e : BuildCacheEntry) (f : String)
    (h : depChanged fs (some e) f = false) :
    ∃ t, lookupEntry e.modifiedMap f = some t ∧ fs.mtime f ≤ t := by
  cases hl : lookupEntry e.modifiedMap f with
  | none =>
    exfalso
    have htrue : depChanged fs (some e) f = true := by simp [depChanged, hl]
    rw [h] at htrue
    cases htrue
  | some t =>
    have h2 : decide (fs.mtime f > t) = false := by
      have hd : depChanged fs (some e) f = decide (fs.mtime f > t) := by
        simp [depChanged, hl]
      rw [hd] at h
      exact h
    simp only [decide_eq_false_iff_not, not_lt] at h2
    exact ⟨t, rfl, h2⟩

/-- Build-mode fast path: when a cache entry exists whose dependency snapshot
records every current-closure member at a timestamp that has not increased,
the loader returns the cached tuple, leaves the cache untouched and only
stats the closure. -/
theorem getTailwindConfigBuild_fast_path (resolveCfg : Config → Config)
    (hashFn : Config → Nat) (fs : FS) (cache : BuildCache) (p : String)
    (e : BuildCacheEntry) (hl : lookupEntry cache p = some e)
    (hsnap : ∀ f ∈ fs.depClosure p,
      ∃ t, lookupEntry e.modifiedMap f = some t ∧ fs.mtime f ≤ t) :
    getTailwindConfigBuild resolveCfg hashFn fs cache (ConfigInput.path p)
      = (⟨e.config, some p, e.hashVal, e.deps⟩, cache, (fs.depClosure p).map Eff.stat) := by
  have hany : (fs.depClosure p).any (depChanged fs (some e)) = false :=
    depChanged_all_false fs e (fs.depClosure p) hsnap
  simp only [getTailwindConfigBuild, hl, hany, Bool.false_eq_true, if_false]

/-- After any build-mode loader call on a file path whose dependency closure
contains the path itself, the cache holds an entry for the path agreeing with
the returned tuple and whose snapshot dominates the current timestamps. -/
theorem getTailwindConfigBuild_snapshot (resolveCfg : Config → Config)
    (hashFn : Config → Nat) (fs : FS) (cache : BuildCache) (p : String)
    (hself : p ∈ fs.depClosure p) :
    ∃ e, lookupEntry
        (getTailwindConfigBuild resolveCfg hashFn fs cache (ConfigInput.path p)).2.1 p
        = some e
      ∧ e.config = (getTailwindConfigBuild resolveCfg hashFn fs cache
          (ConfigInput.path p)).1.config
      ∧ e.hashVal = (getTailwindConfigBuild resolveCfg hashFn fs cache
          (ConfigInput.path p)).1.hashVal
      ∧ e.deps = (getTailwindConfigBuild resolveCfg hashFn fs cache
          (ConfigInput.path p)).1.deps
      ∧ (getTailwindConfigBuild resolveCfg hashFn fs cache
          (ConfigInput.path p)).1.sourcePath = some p
      ∧ ∀ f ∈ fs.depClosure p,
          ∃ t, lookupEntry e.modifiedMap f = some t ∧ fs.mtime f ≤ t := by
  by_cases hany : (fs.depClosure p).any (depChanged fs (lookupEntry cache p)) = true
  · refine ⟨⟨resolveCfg (fs.parse p), hashFn (resolveCfg (fs.parse p)), fs.depClosure p,
      (fs.depClosure p).map fun f => (f, fs.mtime f)⟩, ?_, ?_, ?_, ?_, ?_, ?_⟩
    · simp only [getTailwindConfigBuild, hany, if_true]
      exact lookupEntry_setEntry_self cache p _
    · simp only [getTailwindConfigBuild, hany, if_true]
    · simp only [getTailwindConfigBuild, hany, if_true]
    · simp only [getTailwindConfigBuild, hany, if_true]
    · simp only [getTailwindConfigBuild, hany, if_true]
    · intro f hf
      exact ⟨fs.mtime f, lookupEntry_map_self (fs.depClosure p) (fun f => fs.mtime f) f hf,
        le_refl _⟩
  · have hany' : (fs.depClosure p).any (depChanged fs (lookupEntry cache p)) = false :=
      Bool.eq_false_iff.mpr hany
    cases hprev : lookupEntry cache p with
    | none =>
      exfalso
      apply hany
      rw [List.any_eq_true]
      exact ⟨p, hself, by rw [hprev]; rfl⟩
    | some e =>
      have hsnap : ∀ f ∈ fs.depClosure p,
          ∃ t, lookupEntry e.modifiedMap f = some t ∧ fs.mtime f ≤ t := by
        intro f hf
        apply depChanged_false fs e f
        have := List.any_eq_false.mp (by rw [hprev] at hany'; exact hany') f hf
        simpa using this
      rw [getTailwindConfigBuild_fast_path resolveCfg hashFn fs cache p e hprev hsnap]
      exact ⟨e, hprev, rfl, rfl, rfl, rfl, hsnap⟩

/-- Watch-mode fast path: when a cache entry exists whose recorded timestamp
is at least the configuration file's current one, the loader returns the
cached tuple and leaves the cache untouched, emitting a single stat. -/
theorem getTailwindConfigWatch_fast_path (resolveCfg : Config → Config)
    (hashFn : Config → Nat) (fs : FS) (cache : WatchCache) (p : String)
    (e : WatchCacheEntry) (hl : lookupEntry cache p = some e)
    (hle : fs.mtime p ≤ e.modifiedAt) :
    getTailwindConfigWatch resolveCfg hashFn fs cache (ConfigInput.path p)
      = (⟨e.config, some p, e.hashVal, [some p]⟩, cache, [Eff.stat p]) := by
  simp only [getTailwindConfigWatch, hl, hle, if_true]

/-- After any watch-mode loader call on a file path, the cache holds an entry
for the path agreeing with the returned tuple, recorded at a timestamp at
least the file's current one. -/
theorem getTailwindConfigWatch_snapshot (resolveCfg : Config → Config)
    (hashFn : Config → Nat) (fs : FS) (cache : WatchCache) (p : String) :
    ∃ e, lookupEntry
        (getTailwindConfigWatch resolveCfg hashFn fs cache (ConfigInput.path p)).2.1 p
        = some e
      ∧ e.config = (getTailwindConfigWatch resolveCfg hashFn fs cache
          (ConfigInput.path p)).1.config
      ∧ e.hashVal = (getTailwindConfigWatch resolveCfg hashFn fs cache
          (ConfigInput.path p)).1.hashVal
      ∧ (getTailwindConfigWatch resolveCfg hashFn fs cache
          (ConfigInput.path p)).1.sourcePath = some p
      ∧ (getTailwindConfigWatch resolveCfg hashFn fs cache
          (ConfigInput.path p)).1.deps = [some p]
      ∧ fs.mtime p ≤ e.modifiedAt := by
  cases hprev : lookupEntry cache p with
  | none =>
    refine ⟨⟨resolveCfg (fs.parse p), fs.mtime p, hashFn (resolveCfg (fs.parse p))⟩,
      ?_, ?_, ?_, ?_, ?_, le_refl _⟩
    all_goals simp only [getTailwindConfigWatch, hprev]
    exact lookupEntry_setEntry_self cache p _
  | some e =>
    by_cases hle : fs.mtime p ≤ e.modifiedAt
    · rw [getTailwindConfigWatch_fast_path resolveCfg hashFn fs cache p e hprev hle]
      exact ⟨e, hprev, rfl, rfl, rfl, rfl, hle⟩
    · refine ⟨⟨resolveCfg (fs.parse p), fs.mtime p, hashFn (resolveCfg (fs.parse p))⟩,
        ?_, ?_, ?_, ?_, ?_, le_refl _⟩
      all_goals simp only [getTailwindConfigWatch, hprev, hle, if_false]
      exact lookupEntry_setEntry_self cache p _

/-- Claim C3 (confirmed): two successive configuration loads of the same file
path, with the dependency closure unchanged and no dependency timestamp
increased in between, return the identical `[config, path, hash, deps]` tuple
(the cached value is handed back as-is, which models object identity), leave
the cache untouched, and the second call performs no re-read/re-parse of the
configuration module (no `reparse` effect). Stated for both the build-mode
and the watch-mode loader. -/
theorem C3_config_cache_fast_path (resolveCfg : Config → Config) (hashFn : Config → Nat)
    (fs1 fs2 : FS) (cache : BuildCache) (wcache : WatchCache) (p : String)
    (hself : p ∈ fs1.depClosure p)
    (hclos : fs2.depClosure p = fs1.depClosure p)
    (hmt : ∀ f ∈ fs1.depClosure p, fs2.mtime f ≤ fs1.mtime f) :
    ((getTailwindConfigBuild resolveCfg hashFn fs2
        (getTailwindConfigBuild resolveCfg hashFn fs1 cache (ConfigInput.path p)).2.1
        (ConfigInput.path p)).1
      = (getTailwindConfigBuild resolveCfg hashFn fs1 cache (ConfigInput.path p)).1
     ∧ (getTailwindConfigBuild resolveCfg hashFn fs2
          (getTailwindConfigBuild resolveCfg hashFn fs1 cache (ConfigInput.path p)).2.1
          (ConfigInput.path p)).2.1
        = (getTailwindConfigBuild resolveCfg hashFn fs1 cache (ConfigInput.path p)).2.1
     ∧ ∀ q, Eff.reparse q ∉ (getTailwindConfigBuild resolveCfg hashFn fs2
          (getTailwindConfigBuild resolveCfg hashFn fs1 cache (ConfigInput.path p)).2.1
          (ConfigInput.path p)).2.2)
    ∧ ((getTailwindConfigWatch resolveCfg hashFn fs2
        (getTailwindConfigWatch resolveCfg hashFn fs1 wcache (ConfigInput.path p)).2.1
        (ConfigInput.path p)).1
      = (getTailwindConfigWatch resolveCfg hashFn fs1 wcache (ConfigInput.path p)).1
     ∧ (getTailwindConfigWatch resolveCfg hashFn fs2
          (getTailwindConfigWatch resolveCfg hashFn fs1 wcache (ConfigInput.path p)).2.1
          (ConfigInput.path p)).2.1
        = (getTailwindConfigWatch resolveCfg hashFn fs1 wcache (ConfigInput.path p)).2.1
     ∧ ∀ q, Eff.reparse q ∉ (getTailwindConfigWatch resolveCfg hashFn fs2
          (getTailwindConfigWatch resolveCfg hashFn fs1 wcache (ConfigInput.path p)).2.1
          (ConfigInput.path p)).2.2) := by
  constructor
  · obtain ⟨e, hle, hc, hh, hd, hsp, hsnap⟩ :=
      getTailwindConfigBuild_snapshot resolveCfg hashFn fs1 cache p hself
    have hsnap2 : ∀ f ∈ fs2.depClosure p,
        ∃ t, lookupEntry e.modifiedMap f = some t ∧ fs2.mtime f ≤ t := by
      intro f hf
      rw [hclos] at hf
      obtain ⟨t, hlt, hlef⟩ := hsnap f hf
      exact ⟨t, hlt, le_trans (hmt f hf) hlef⟩
    rw [getTailwindConfigBuild_fast_path resolveCfg hashFn fs2 _ p e hle hsnap2]
    refine ⟨?_, rfl, ?_⟩
    · show (⟨e.config, some p, e.hashVal, e.deps⟩ : LoaderResult String) = _
      rw [hc, hh, hd, ← hsp]
    · intro q hq
      simp only [List.mem_map] at hq
      obtain ⟨f, _, hfe⟩ := hq
      exact Eff.noConfusion hfe
  · obtain ⟨e, hle, hc, hh, hsp, hd, hm1⟩ :=
      getTailwindConfigWatch_snapshot resolveCfg hashFn fs1 wcache p
    have hle2 : fs2.mtime p ≤ e.modifiedAt := le_trans (hmt p hself) hm1
    rw [getTailwindConfigWatch_fast_path resolveCfg hashFn fs2 _ p e hle hle2]
    refine ⟨?_, rfl, ?_⟩
    · show (⟨e.config, some p, e.hashVal, [some p]⟩ : LoaderResult (Option String)) = _
      rw [hc, hh, ← hd, ← hsp]
    · intro q hq
      simp only [List.mem_singleton] at hq
      exact Eff.noConfusion hq

/-- A stable concrete filesystem for loader witnesses: the configuration's
closure is the file itself and no timestamp ever changes. -/
def fsStable : FS :=
  { present := fun _ => true
    mtime := fun _ => 10
    fileContent := fun _ => ""
    depClosure := fun p => [p]
    globFiles := fun _ => []
    parse := fun _ => default }

/-- Witness for C3: on `fsStable` (nothing changes between the two loads) the
second build-mode load returns the identical tuple as the first. -/
theorem C3_config_cache_fast_path_witness :
    (getTailwindConfigBuild id (fun c => c.theme) fsStable
        (getTailwindConfigBuild id (fun c => c.theme) fsStable []
          (ConfigInput.path "/proj/tailwind.config.js")).2.1
        (ConfigInput.path "/proj/tailwind.config.js")).1
      = (getTailwindConfigBuild id (fun c => c.theme) fsStable []
          (ConfigInput.path "/proj/tailwind.config.js")).1 :=
  (C3_config_cache_fast_path id (fun c => c.theme) fsStable fsStable [] []
    "/proj/tailwind.config.js" (by decide) rfl (by decide)).1.1

/-- A filesystem whose configuration module has a second file in its
dependency closure. -/
def fsTwoDeps : FS :=
  { present := fun _ => true
    mtime := fun _ => 5
    fileContent := fun _ => ""
    depClosure := fun q =>
      if q = "/proj/tailwind.config.js" then
        ["/proj/tailwind.config.js", "/proj/theme.js"]
      else [q]
    globFiles := fun _ => []
    parse := fun _ => default }

/-- Claim C4 as stated is false for the watch-mode loader: on a configuration
whose closure also contains `/proj/theme.js`, the watch-mode
`getTailwindConfig` neither returns the closure as the dependency set (it
returns only the configuration path) nor reads the other closure member's
timestamp. -/
theorem C4_counterexample :
    ¬ ((getTailwindConfigWatch id (fun c => c.theme) fsTwoDeps []
          (ConfigInput.path "/proj/tailwind.config.js")).1.deps
        = (fsTwoDeps.depClosure "/proj/tailwind.config.js").map some)
    ∧ Eff.stat "/proj/theme.js" ∉ (getTailwindConfigWatch id (fun c => c.theme) fsTwoDeps []
          (ConfigInput.path "/proj/tailwind.config.js")).2.2 := by
  decide

/-- Claim C4 (corrected; counterexample `C4_counterexample`): the build-mode
loader computes the transitive dependency closure, stats every member of it,
and (here on a cold cache) returns that closure as the dependency set; the
watch-mode loader instead stats only the configuration file itself and always
returns the singleton list holding the configuration path. -/
theorem C4_dependency_closure (resolveCfg : Config → Config) (hashFn : Config → Nat)
    (fs : FS) (cache : BuildCache) (wcache : WatchCache) (p : String)
    (hcold : lookupEntry cache p = none) (hself : p ∈ fs.depClosure p) :
    ((getTailwindConfigBuild resolveCfg hashFn fs cache (ConfigInput.path p)).1.deps
        = fs.depClosure p
     ∧ ∀ f ∈ fs.depClosure p,
        Eff.stat f ∈ (getTailwindConfigBuild resolveCfg hashFn fs cache
          (ConfigInput.path p)).2.2)
    ∧ ((getTailwindConfigWatch resolveCfg hashFn fs wcache (ConfigInput.path p)).1.deps
        = [some p]
     ∧ ∀ f, Eff.stat f ∈ (getTailwindConfigWatch resolveCfg hashFn fs wcache
          (ConfigInput.path p)).2.2 → f = p) := by
  have hany : (fs.depClosure p).any (depChanged fs (lookupEntry cache p)) = true := by
    rw [List.any_eq_true]
    exact ⟨p, hself, by rw [hcold]; rfl⟩
  constructor
  · constructor
    · simp only [getTailwindConfigBuild, hany, if_true]
    · intro f hf
      simp only [getTailwindConfigBuild, hany, if_true]
      exact List.mem_append_left _ (List.mem_map_of_mem Eff.stat hf)
  · cases hprev : lookupEntry wcache p with
    | none =>
      refine ⟨?_, ?_⟩
      · simp only [getTailwindConfigWatch, hprev]
      · intro f hf
        simp only [getTailwindConfigWatch, hprev, List.mem_cons,
          List.not_mem_nil, or_false] at hf
        rcases hf with h1 | h1
        · exact Eff.stat.inj h1
        · exact Eff.noConfusion h1
    | some e =>
      by_cases hle : fs.mtime p ≤ e.modifiedAt
      · rw [getTailwindConfigWatch_fast_path resolveCfg hashFn fs wcache p e hprev hle]
        refine ⟨rfl, ?_⟩
        intro f hf
        simp only [List.mem_singleton] at hf
        exact Eff.stat.inj hf
      · refine ⟨?_, ?_⟩
        · simp only [getTailwindConfigWatch, hprev, hle, if_false]
        · intro f hf
          simp only [getTailwindConfigWatch, hprev, hle, if_false, List.mem_cons,
            List.not_mem_nil, or_false] at hf
          rcases hf with h1 | h1
          · exact Eff.stat.inj h1
          · exact Eff.noConfusion h1

/-- Witness for C4 (amended): on `fsTwoDeps` with a cold cache, the build-mode
loader returns the two-element closure as the dependency set. -/
theorem C4_dependency_closure_witness :
    (getTailwindConfigBuild id (fun c => c.theme) fsTwoDeps []
        (ConfigInput.path "/proj/tailwind.config.js")).1.deps
      = fsTwoDeps.depClosure "/proj/tailwind.config.js" :=
  (C4_dependency_closure id (fun c => c.theme) fsTwoDeps [] []
    "/proj/tailwind.config.js" rfl (by decide)).1.1

/-- The inline configuration value used in the C5 evaluation. -/
def inlineCfg : Config := ⟨Purge.obj [ContentItem.raw "<span></span>" "html"], 7⟩

/-- Claim C5 (code bug in the watch-mode loader): for an inline configuration
value, the build-mode loader returns a null source path, an *empty*
dependency list, the hash of the resolved value, and leaves the cache
untouched — as the claim states. The watch-mode loader, however, executes
`return [newConfig, null, hash(newConfig), [userConfigPath]]` with
`userConfigPath` known to be null on that branch, so its dependency list is
`[null]` (`[none]` here) rather than empty: the configuration-dependency
registration loop then passes null to `registerDependency`. -/
theorem C5_inline_watch_deps_bug :
    (getTailwindConfigWatch id (fun c => c.theme) fsTwoDeps []
        (ConfigInput.inlineConfig inlineCfg)).1.deps = [none]
    ∧ (getTailwindConfigWatch id (fun c => c.theme) fsTwoDeps []
        (ConfigInput.inlineConfig inlineCfg)).2.1 = []
    ∧ (getTailwindConfigWatch id (fun c => c.theme) fsTwoDeps []
        (ConfigInput.inlineConfig inlineCfg)).1.sourcePath = none
    ∧ (getTailwindConfigWatch id (fun c => c.theme) fsTwoDeps []
        (ConfigInput.inlineConfig inlineCfg)).1.hashVal = 7
    ∧ (getTailwindConfigBuild id (fun c => c.theme) fsTwoDeps []
        (ConfigInput.inlineConfig inlineCfg)).1.deps = ([] : List String)
    ∧ (getTailwindConfigBuild id (fun c => c.theme) fsTwoDeps []
        (ConfigInput.inlineConfig inlineCfg)).2.1 = []
    ∧ (getTailwindConfigBuild id (fun c => c.theme) fsTwoDeps []
        (ConfigInput.inlineConfig inlineCfg)).1.sourcePath = none := by
  decide

/-! ## Touch / watcher lemmas and claims -/

theorem FS.touch_mtime_self (fs : FS) (now : Nat) (q : String) :
    (fs.touch now q).mtime q = now := by
  unfold FS.touch
  split <;> simp

theorem FS.touch_mtime_other (fs : FS) (now : Nat) (q r : String) (h : r ≠ q) :
    (fs.touch now q).mtime r = fs.mtime r := by
  unfold FS.touch
  split <;> simp [h]

/-- Claim C8 (confirmed): `touch` always returns normally (it is a total
state transformer here); afterwards the file exists with modification time
set to the current time, and when the timestamp update failed because the
file did not exist, the file has been created with empty content. -/
theorem C8_touch (fs : FS) (now : Nat) (p : String) :
    (fs.touch now p).present p = true
    ∧ (fs.touch now p).mtime p = now
    ∧ (fs.present p = false → (fs.touch now p).fileContent p = "") := by
  unfold FS.touch
  by_cases h : fs.present p <;> simp [h]

/-- Witness for C8 at a filesystem where the file is missing: the recovery
branch creates it empty with the new timestamp. -/
def fsEmptyDir : FS :=
  { present := fun _ => false
    mtime := fun _ => 0
    fileContent := fun _ => "x"
    depClosure := fun p => [p]
    globFiles := fun _ => []
    parse := fun _ => default }

theorem C8_touch_witness :
    (fsEmptyDir.touch 42 "/home/.tailwindcss/touch/touch-1-abc").present
        "/home/.tailwindcss/touch/touch-1-abc" = true
    ∧ (fsEmptyDir.touch 42 "/home/.tailwindcss/touch/touch-1-abc").mtime
        "/home/.tailwindcss/touch/touch-1-abc" = 42
    ∧ (fsEmptyDir.present "/home/.tailwindcss/touch/touch-1-abc" = false →
        (fsEmptyDir.touch 42 "/home/.tailwindcss/touch/touch-1-abc").fileContent
          "/home/.tailwindcss/touch/touch-1-abc" = "") :=
  C8_touch fsEmptyDir 42 "/home/.tailwindcss/touch/touch-1-abc"

/-- Claim C7 (confirmed): on a `change` event for a configuration dependency,
the configuration file's own modification time is advanced to the current
time, every configuration dependency's `require.cache` entry is removed, and
nothing is appended to `changedContent`; on a `change` event for any other
file, the file's content record is appended to `changedContent` and the
context's touch file's modification time is advanced instead. -/
theorem C7_change_event (configPath : String) (configDependencies : List String)
    (touchFile : String) (now : Nat) (fs : FS) (ctx : WatchHandlerCtx) (file : String)
    (hcp : fs.mtime configPath < now) (htf : fs.mtime touchFile < now) :
    (file ∈ configDependencies →
      ((onChangeEvent configPath configDependencies touchFile now fs ctx file).1.mtime
          configPath = now
       ∧ fs.mtime configPath
          < (onChangeEvent configPath configDependencies touchFile now fs ctx
              file).1.mtime configPath
       ∧ (∀ d ∈ configDependencies,
          d ∉ (onChangeEvent configPath configDependencies touchFile now fs ctx
              file).2.requireCache)
       ∧ (onChangeEvent configPath configDependencies touchFile now fs ctx
            file).2.changedContent = ctx.changedContent))
    ∧ (file ∉ configDependencies →
      ((onChangeEvent configPath configDependencies touchFile now fs ctx
          file).2.changedContent
        = ctx.changedContent
          ++ [⟨fs.fileContent (pathResolveDot file), extOf (pathResolveDot file)⟩]
       ∧ (onChangeEvent configPath configDependencies touchFile now fs ctx
            file).1.mtime touchFile = now
       ∧ fs.mtime touchFile
          < (onChangeEvent configPath configDependencies touchFile now fs ctx
              file).1.mtime touchFile)) := by
  constructor
  · intro hmem
    have heq : onChangeEvent configPath configDependencies touchFile now fs ctx file
        = (fs.touch now configPath,
           { ctx with requireCache :=
              ctx.requireCache.filter fun m => m ∉ configDependencies }) := by
      simp [onChangeEvent, hmem]
    rw [heq]
    refine ⟨FS.touch_mtime_self fs now configPath, ?_, ?_, rfl⟩
    · rw [FS.touch_mtime_self fs now configPath]
      exact hcp
    · intro d hd hdmem
      rw [List.mem_filter] at hdmem
      have h2 := hdmem.2
      simp only [decide_eq_true_eq] at h2
      exact h2 hd
  · intro hmem
    have heq : onChangeEvent configPath configDependencies touchFile now fs ctx file
        = (fs.touch now touchFile,
           { ctx with changedContent := ctx.changedContent
              ++ [⟨fs.fileContent (pathResolveDot file), extOf (pathResolveDot file)⟩] }) := by
      simp [onChangeEvent, hmem]
    rw [heq]
    refine ⟨rfl, FS.touch_mtime_self fs now touchFile, ?_⟩
    rw [FS.touch_mtime_self fs now touchFile]
    exact htf

/-- A concrete state for watcher-event witnesses. -/
def fsWatch : FS :=
  { present := fun _ => true
    mtime := fun _ => 3
    fileContent := fun q => if q = "/proj/src/a.html" then "<a/>" else "cfg"
    depClosure := fun p => [p]
    globFiles := fun _ => []
    parse := fun _ => default }

theorem C7_change_event_witness :
    (onChangeEvent "/proj/tailwind.config.js" ["/proj/tailwind.config.js"]
        "/touch/t1" 9 fsWatch ⟨[], ["/proj/tailwind.config.js"]⟩
        "/proj/tailwind.config.js").1.mtime "/proj/tailwind.config.js" = 9
    ∧ (onChangeEvent "/proj/tailwind.config.js" ["/proj/tailwind.config.js"]
        "/touch/t1" 9 fsWatch ⟨[], ["/proj/tailwind.config.js"]⟩
        "/proj/tailwind.config.js").2.changedContent = [] :=
  ⟨((C7_change_event "/proj/tailwind.config.js" ["/proj/tailwind.config.js"]
      "/touch/t1" 9 fsWatch ⟨[], ["/proj/tailwind.config.js"]⟩
      "/proj/tailwind.config.js" (by decide) (by decide)).1 (by decide)).1,
   ((C7_change_event "/proj/tailwind.config.js" ["/proj/tailwind.config.js"]
      "/touch/t1" 9 fsWatch ⟨[], ["/proj/tailwind.config.js"]⟩
      "/proj/tailwind.config.js" (by decide) (by decide)).1 (by decide)).2.2.2⟩

/-- Claim C10 (confirmed): an `add` event always reads the added file,
appends its record to `changedContent` and advances the touch file's
modification time — even when the added path is a configuration dependency:
the handler takes no configuration-dependency branch, the configuration
file's timestamp is untouched and the `require` cache is untouched. -/
theorem C10_add_event (configPath : String) (configDependencies : List String)
    (touchFile : String) (now : Nat) (fs : FS) (ctx : WatchHandlerCtx) (file : String)
    (hmem : file ∈ configDependencies) (hne : configPath ≠ touchFile)
    (htf : fs.mtime touchFile < now) :
    (onAddEvent touchFile now fs ctx file).2.changedContent
      = ctx.changedContent
        ++ [⟨fs.fileContent (pathResolveDot file), extOf (pathResolveDot file)⟩]
    ∧ (onAddEvent touchFile now fs ctx file).1.mtime touchFile = now
    ∧ fs.mtime touchFile < (onAddEvent touchFile now fs ctx file).1.mtime touchFile
    ∧ (onAddEvent touchFile now fs ctx file).1.mtime configPath = fs.mtime configPath
    ∧ (onAddEvent touchFile now fs ctx file).2.requireCache = ctx.requireCache := by
  refine ⟨rfl, FS.touch_mtime_self fs now touchFile, ?_, ?_, rfl⟩
  · show fs.mtime touchFile < (fs.touch now touchFile).mtime touchFile
    rw [FS.touch_mtime_self fs now touchFile]
    exact htf
  · exact FS.touch_mtime_other fs now touchFile configPath hne

theorem C10_add_event_witness :
    (onAddEvent "/touch/t1" 9 fsWatch ⟨[], ["/proj/tailwind.config.js"]⟩
        "/proj/tailwind.config.js").2.changedContent
      = [] ++ [⟨fsWatch.fileContent (pathResolveDot "/proj/tailwind.config.js"),
          extOf (pathResolveDot "/proj/tailwind.config.js")⟩]
    ∧ (onAddEvent "/touch/t1" 9 fsWatch ⟨[], ["/proj/tailwind.config.js"]⟩
        "/proj/tailwind.config.js").1.mtime "/touch/t1" = 9
    ∧ fsWatch.mtime "/touch/t1"
        < (onAddEvent "/touch/t1" 9 fsWatch ⟨[], ["/proj/tailwind.config.js"]⟩
            "/proj/tailwind.config.js").1.mtime "/touch/t1"
    ∧ (onAddEvent "/touch/t1" 9 fsWatch ⟨[], ["/proj/tailwind.config.js"]⟩
        "/proj/tailwind.config.js").1.mtime "/proj/tailwind.config.js"
      = fsWatch.mtime "/proj/tailwind.config.js"
    ∧ (onAddEvent "/touch/t1" 9 fsWatch ⟨[], ["/proj/tailwind.config.js"]⟩
        "/proj/tailwind.config.js").2.requireCache = ["/proj/tailwind.config.js"] :=
  C10_add_event "/proj/tailwind.config.js" ["/proj/tailwind.config.js"] "/touch/t1" 9
    fsWatch ⟨[], ["/proj/tailwind.config.js"]⟩ "/proj/tailwind.config.js"
    (by decide) (by decide) (by decide)

/-- Claim C9 (confirmed, for sources whose directive set is nonempty — the
only ones for which the watch-mode request appends anything): the first build
request on an unscanned context glob-expands the candidates and appends the
raw inline entries followed by every matched file's content; every subsequent
request on the (now scanned) context appends exactly the raw inline entries
and zero scanned files. -/
theorem C9_watch_scan_once (fs : FS) (purge : Purge) (cand : List String)
    (dirs : List String) (st : WatchCtxState)
    (hd : 0 < dirs.length) (hs : st.scanned = false) :
    ((watchingRequest fs purge cand dirs st).scanned = true
     ∧ (watchingRequest fs purge cand dirs st).changedContent
        = st.changedContent ++ rawEntries purge
          ++ (fs.globFiles cand).map (fun f => ContentRecord.mk (fs.fileContent f) (extOf f)))
    ∧ ∀ st2 : WatchCtxState, st2.scanned = true →
        ((watchingRequest fs purge cand dirs st2).scanned = true
         ∧ (watchingRequest fs purge cand dirs st2).changedContent
            = st2.changedContent ++ rawEntries purge) := by
  constructor
  · constructor
    · simp [watchingRequest, resolvedChangedContentWatch, resolveChangedFilesWatch, hd, hs]
    · simp [watchingRequest, resolvedChangedContentWatch, resolveChangedFilesWatch, hd, hs]
  · intro st2 h2
    constructor
    · simp [watchingRequest, resolvedChangedContentWatch, resolveChangedFilesWatch, hd, h2]
    · simp [watchingRequest, resolvedChangedContentWatch, resolveChangedFilesWatch, hd, h2]

theorem C9_watch_scan_once_witness :
    ((watchingRequest fsTwoFiles purgeRaw ["/proj/src/**"] ["tailwind"]
        ⟨false, []⟩).scanned = true
     ∧ (watchingRequest fsTwoFiles purgeRaw ["/proj/src/**"] ["tailwind"]
        ⟨false, []⟩).changedContent
        = [] ++ rawEntries purgeRaw
          ++ (fsTwoFiles.globFiles ["/proj/src/**"]).map
              (fun f => ContentRecord.mk (fsTwoFiles.fileContent f) (extOf f)))
    ∧ ∀ st2 : WatchCtxState, st2.scanned = true →
        ((watchingRequest fsTwoFiles purgeRaw ["/proj/src/**"] ["tailwind"] st2).scanned = true
         ∧ (watchingRequest fsTwoFiles purgeRaw ["/proj/src/**"] ["tailwind"]
            st2).changedContent = st2.changedContent ++ rawEntries purgeRaw) :=
  C9_watch_scan_once fsTwoFiles purgeRaw ["/proj/src/**"] ["tailwind"] ⟨false, []⟩
    (by decide) rfl

/-- Claim C2 as stated is false: with an empty directive set, the
context-dependency set handed to `getContext` for identity still contains the
configuration dependency. -/
theorem C2_counterexample :
    "/proj/tailwind.config.js"
      ∈ contextDependenciesOf ["/proj/tailwind.config.js"] [] "/proj/app.css" [] := by
  decide

/-- Claim C2 (corrected; counterexample `C2_counterexample`): when the
directive set is empty, the context-dependency set used for identity omits
only the source file and its import dependencies — it still equals the
configuration dependencies, so configuration changes are not excluded from
invalidating the context. Content files are never members of the identity
set in either case (every member is a configuration dependency, the source
file, or an import-dependency message file). -/
theorem C2_identity_deps (configDependencies : List String) (srcFrom : String)
    (messages : List Msg) :
    contextDependenciesOf configDependencies [] srcFrom messages = configDependencies
    ∧ ∀ (dirs : List String) (d : String),
        d ∈ contextDependenciesOf configDependencies dirs srcFrom messages →
          d ∈ configDependencies ∨ d = srcFrom
            ∨ d ∈ (messages.filter fun m => m.type = "dependency").map Msg.file := by
  constructor
  · simp [contextDependenciesOf]
  · intro dirs d hd
    unfold contextDependenciesOf at hd
    split at hd
    · rcases List.mem_append.mp hd with h | h
      · rcases List.mem_append.mp h with h1 | h1
        · exact Or.inl h1
        · simp only [List.mem_singleton] at h1
          exact Or.inr (Or.inl h1)
      · exact Or.inr (Or.inr h)
    · exact Or.inl hd

theorem C2_identity_deps_witness :
    contextDependenciesOf ["/proj/tailwind.config.js"] [] "/proj/app.css"
        [⟨"dependency", "/proj/imported.css"⟩]
      = ["/proj/tailwind.config.js"]
    ∧ ∀ (dirs : List String) (d : String),
        d ∈ contextDependenciesOf ["/proj/tailwind.config.js"] dirs "/proj/app.css"
            [⟨"dependency", "/proj/imported.css"⟩] →
          d ∈ ["/proj/tailwind.config.js"] ∨ d = "/proj/app.css"
            ∨ d ∈ (([⟨"dependency", "/proj/imported.css"⟩] : List Msg).filter
                fun m => m.type = "dependency").map Msg.file :=
  C2_identity_deps ["/proj/tailwind.config.js"] "/proj/app.css"
    [⟨"dependency", "/proj/imported.css"⟩]

end TrackingContext
